import Mathlib

/-!
Shallow embedding of the two scripts of batch-pddl-generator:
`src/generate-instances.py` (the SMAC-driven generation loop) and
`src/collect-instances.py` (the collection pass), together with proofs of
the behavioural properties claimed for them.

Modelling conventions:
* Python numbers (planner runtimes, configuration parameter values) are
  modelled as exact rationals `Rat`; the float literal `0.1` is `mkRat 1 10`.
* Python dicts whose iteration order matters are modelled as association
  lists; dicts used purely as key-value tables are modelled as functions
  into `Option`; Python sets are modelled as lists of distinct elements.
* The external collaborators that the scripts merely call (the `hashlib.md5`
  digest and `utils.join_parameters`, which lives outside the two script
  files) are abstracted as function-valued fields of a configuration record:
  the scripts use their results only as opaque strings.
* Filesystem writes are modelled as an ordered list of (path, content) pairs;
  a later write to the same path overwrites an earlier one, exactly as
  `shutil.copy2` and `open(..., "w")` do.
-/

namespace BatchPDDL

/-- Values of a configuration parameter dictionary, modelled as rationals. -/
abbrev Params := List (String × Rat)

/-- JSON values, as far as the properties.json record needs them. -/
inductive JVal where
  | jnull : JVal
  | jint : Int → JVal
  | jnum : Rat → JVal
  | jstr : String → JVal
  | jobj : List (String × JVal) → JVal

/-- A JSON object is flat when none of its top-level values is itself an
object. -/
def isFlatJson (fields : List (String × JVal)) : Bool :=
  fields.all (fun kv =>
    match kv.2 with
    | JVal.jobj _ => false
    | _ => true)

/-! ## generate-instances.py -/

/-- parse_runtime (generate-instances.py lines 144-151): the wall-clock
runtime is extracted from run.log with a regular expression and clamped from
below to 0.1 (the comment in the source says: log(0) is undefined). The
regular-expression extraction from the log text is abstracted: the argument
`parsed` is the float value matched in the log, and this function performs
the clamping step `runtime = max(0.1, runtime)`. -/
def parse_runtime (parsed : Rat) : Rat :=
  max (mkRat 1 10) parsed

/-- store_results (generate-instances.py lines 154-170): the run record
written to properties.json. The Python dict is built with keys domain,
parameters, seed, planner_exitcode, runtime, where `seed` is coerced with
`int(...)` (modelled by taking `seed : Int`); `json.dump` is called with
`sort_keys=True`, so the serialized object lists its keys in ascending
order. -/
def store_results (domain : String) (cfg : Params) (seed : Int)
    (exitcode : Int) (runtime : Option Rat) : List (String × JVal) :=
  [("domain", JVal.jstr domain),
   ("parameters", JVal.jobj (cfg.map (fun kv => (kv.1, JVal.jnum kv.2)))),
   ("planner_exitcode", JVal.jint exitcode),
   ("runtime",
     match runtime with
     | some r => JVal.jnum r
     | none => JVal.jnull),
   ("seed", JVal.jint seed)]

/-- Outcome-determining data of one trial of evaluate_configuration:
`adapted` is the result of DOMAIN.adapt_parameters (`none` when it raises
IllegalConfiguration), `generatorOk` is false when
utils.generate_input_files raises CalledProcessError, `exitcode` is the
planner exit code returned by RUNNER.run_planner, and `parsedRuntime` is
the float the runtime regular expression matches in run.log (read only
when the exit code is 0). -/
structure TrialInput where
  adapted : Option Params
  generatorOk : Bool
  exitcode : Int
  parsedRuntime : Rat

/-- evaluate_configuration (generate-instances.py lines 173-203): returns
the SMAC score together with the properties.json record written by
store_results (`none` when the trial aborts before store_results runs).
An illegal configuration or a generator failure returns the penalty score
100; otherwise the planner runs, the runtime is parsed exactly when the
exit code is 0, the record is written, and the score is the negated
runtime on success and 100 on a non-zero exit code. -/
def evaluate_configuration (domain : String) (seed : Int) (t : TrialInput) :
    Rat × Option (List (String × JVal)) :=
  match t.adapted with
  | none => (100, none)
  | some cfg =>
    if t.generatorOk = false then (100, none)
    else
      let exitcode := t.exitcode
      let runtime : Option Rat :=
        if exitcode = 0 then some (parse_runtime t.parsedRuntime) else none
      let record := store_results domain cfg seed exitcode runtime
      match runtime with
      | some r => (-r, some record)
      | none => (100, some record)

/-! ## collect-instances.py -/

/-- RUNTIME_BOUNDS (collect-instances.py line 15). -/
def RUNTIME_BOUNDS : List Rat :=
  [1, 10, 20, 50, 100, 200, 500, 1000, 2000, 5000, 10000]

/-- The properties.json record as the collection pass reads it. The
collection loop accesses `runtime` only after the planner_exitcode = 0
filter, and generation writes a numeric runtime exactly for exit code 0
(see store_results), so `runtime` is modelled as a rational here. -/
structure CProps where
  domain : String
  parameters : Params
  seed : Int
  planner_exitcode : Int
  runtime : Rat

/-- One plan directory found by the glob in main: its properties.json
contents (`none` when the file is missing, raising FileNotFoundError in the
source), and the texts of its problem.pddl and domain.pddl files. -/
structure PlanDir where
  props : Option CProps
  problemContent : String
  domainContent : String

/-- Inputs of the collection pass that the two script files do not define
themselves: the destination directory path, the `hashlib.md5` hex digest of
a string, and `utils.join_parameters` (defined outside the script); the
scripts treat the latter two as opaque string producers. -/
structure CollectConfig where
  destdir : String
  md5 : String → String
  join_parameters : Params → String

/-- hash_task (collect-instances.py lines 31-34): the MD5 digest of the
text of the plan directory's problem.pddl. -/
def hash_task (C : CollectConfig) (pd : PlanDir) : String :=
  C.md5 pd.problemContent

/-- Body of the loop of record_max_values for a single key-value pair: the
table entry is overwritten exactly when the key is absent or the new value
is strictly greater (`key not in max_domain_values or value >
max_domain_values[key]`). -/
def rmv_step (m : String → Option Rat) (kv : String × Rat) :
    String → Option Rat :=
  match m kv.1 with
  | none => fun k => if k = kv.1 then some kv.2 else m k
  | some old =>
    if old < kv.2 then (fun k => if k = kv.1 then some kv.2 else m k)
    else m

/-- record_max_values (collect-instances.py lines 37-40): fold rmv_step
over the parameter items in iteration order. -/
def record_max_values (parameters : Params) (m : String → Option Rat) :
    String → Option Rat :=
  parameters.foldl rmv_step m

/-- Increment the counter of bucket `b` by one. -/
def bump (d : Rat → Nat) (b : Rat) : Rat → Nat :=
  fun x => if x = b then d x + 1 else d x

/-- The loop of record_runtime over the remaining bounds: the first bound
that is at least the runtime is incremented and the loop breaks. A missing
dict entry counts as 0, so the source's two-step insert-then-increment is a
single increment here. -/
def record_runtime_loop (d : Rat → Nat) (runtime : Rat) :
    List Rat → (Rat → Nat)
  | [] => d
  | b :: bs =>
    if runtime ≤ b then bump d b else record_runtime_loop d runtime bs

/-- record_runtime (collect-instances.py lines 43-49). -/
def record_runtime (d : Rat → Nat) (runtime : Rat) : Rat → Nat :=
  record_runtime_loop d runtime RUNTIME_BOUNDS

/-- The key list of `sorted(props["parameters"])` in main: the parameter
keys in ascending order. Python's sorted is a stable ascending sort; the
keys of a dict are distinct, so insertion sort produces the same list. -/
def sortedKeys (parameters : Params) : List String :=
  List.insertionSort (fun a b => a ≤ b) (parameters.map Prod.fst)

/-- In-memory state of the loop in main (collect-instances.py lines 74-123)
plus the ordered list of file writes the loop has performed so far. The
three defaultdicts are total functions with the default as base value. -/
structure CollectState where
  max_values : String → String → Option Rat
  seen_task_hashes : String → List String
  seen_runtimes : String → Rat → Nat
  writes : List (String × String)

/-- The state the loop in main starts from: empty defaultdicts, no writes. -/
def initCollectState : CollectState :=
  { max_values := fun _ _ => none
    seen_task_hashes := fun _ => []
    seen_runtimes := fun _ _ => 0
    writes := [] }

/-- One iteration of the loop in main (collect-instances.py lines 82-119):
skip when properties.json is missing, skip when the planner exit code is
non-zero, skip a duplicate task hash within the domain; otherwise record
the hash, the per-domain maxima of the parameters extended with the
planner runtime (dict insert modelled by appending, since the generator
parameter keys never collide with the fresh key planner_runtime), the
runtime bucket, and write the problem file, the domain file and the README
into the per-domain destination directory. -/
def collectStep (C : CollectConfig) (st : CollectState) (pd : PlanDir) :
    CollectState :=
  match pd.props with
  | none => st
  | some props =>
    if props.planner_exitcode ≠ 0 then st
    else
      let domain := props.domain
      let runtime := props.runtime
      let hash := hash_task C pd
      if hash ∈ st.seen_task_hashes domain then st
      else
        let values := props.parameters ++ [("planner_runtime", runtime)]
        let parameters := C.join_parameters props.parameters
        let problem_name := "p-" ++ parameters ++ "-" ++ toString props.seed ++ ".pddl"
        let target_dir := C.destdir ++ "/" ++ domain
        let order := String.intercalate ", " (sortedKeys props.parameters)
        { max_values := fun d =>
            if d = domain then record_max_values values (st.max_values d)
            else st.max_values d
          seen_task_hashes := fun d =>
            if d = domain then hash :: st.seen_task_hashes d
            else st.seen_task_hashes d
          seen_runtimes := fun d =>
            if d = domain then record_runtime (st.seen_runtimes d) runtime
            else st.seen_runtimes d
          writes := st.writes ++
            [(target_dir ++ "/" ++ problem_name, pd.problemContent),
             (target_dir ++ "/domain.pddl", pd.domainContent),
             (target_dir ++ "/README", "Parameter order: " ++ order ++ "\n")] }

/-- The loop in main over all plan directories in glob order. -/
def collectRun (C : CollectConfig) (pds : List PlanDir) (st : CollectState) :
    CollectState :=
  pds.foldl (collectStep C) st

/-- Apply an ordered list of writes to a filesystem (a partial map from
path to content); a later write to the same path wins. -/
def applyWrites (fs : String → Option String) (ws : List (String × String)) :
    String → Option String :=
  ws.foldl (fun fs w p => if p = w.1 then some w.2 else fs p) fs

/-- One whole run of collect-instances.py over the plan directories `pds`,
as a transformation of the destination filesystem: the loop starts from
fresh in-memory state (it never reads the destination directory) and its
writes are applied to the filesystem in order. -/
def collectPass (C : CollectConfig) (pds : List PlanDir)
    (fs : String → Option String) : String → Option String :=
  applyWrites fs (collectRun C pds initCollectState).writes

/-- The content of the last write to path `p` in the list, if any. -/
def lastWrite : List (String × String) → String → Option String
  | [], _ => none
  | w :: ws, p =>
    match lastWrite ws p with
    | some c => some c
    | none => if p = w.1 then some w.2 else none

/-! ## Theorems -/

/-- C3: every failure of a trial — an illegal parameter configuration, a
generator subprocess failure, or a planner run with non-zero exit code —
makes evaluate_configuration return the fixed penalty score 100 instead of
raising, and in collection a plan directory with a missing properties.json
is skipped (the state is unchanged), so both enclosing loops continue. -/
theorem trial_failures_penalized_and_missing_props_skipped
    (domain : String) (seed : Int) (t : TrialInput)
    (C : CollectConfig) (st : CollectState) (pd : PlanDir) :
    (t.adapted = none → (evaluate_configuration domain seed t).1 = 100)
    ∧ (t.generatorOk = false → (evaluate_configuration domain seed t).1 = 100)
    ∧ (t.exitcode ≠ 0 → (evaluate_configuration domain seed t).1 = 100)
    ∧ (pd.props = none → collectStep C st pd = st) := by
  refine ⟨?_, ?_, ?_, ?_⟩
  · intro h
    simp [evaluate_configuration, h]
  · intro h
    cases ha : t.adapted with
    | none => simp [evaluate_configuration, ha]
    | some cfg => simp [evaluate_configuration, ha, h]
  · intro h
    cases ha : t.adapted with
    | none => simp [evaluate_configuration, ha]
    | some cfg =>
      cases hg : t.generatorOk with
      | false => simp [evaluate_configuration, ha, hg]
      | true => simp [evaluate_configuration, ha, hg, h]
  · intro h
    simp [collectStep, h]

/-- Witness for C3 at concrete inputs: an illegal configuration scores 100,
and a plan directory without properties.json leaves the state unchanged. -/
theorem trial_failures_penalized_and_missing_props_skipped_witness :
    (evaluate_configuration "grid" 1
        ⟨none, true, 0, 5⟩ : Rat × Option (List (String × JVal))).1 = 100
    ∧ collectStep ⟨"dest", fun s => s, fun _ => "x"⟩ initCollectState
        ⟨none, "prob", "dom"⟩ = initCollectState :=
  ⟨(trial_failures_penalized_and_missing_props_skipped "grid" 1
      ⟨none, true, 0, 5⟩ ⟨"dest", fun s => s, fun _ => "x"⟩ initCollectState
      ⟨none, "prob", "dom"⟩).1 rfl,
   (trial_failures_penalized_and_missing_props_skipped "grid" 1
      ⟨none, true, 0, 5⟩ ⟨"dest", fun s => s, fun _ => "x"⟩ initCollectState
      ⟨none, "prob", "dom"⟩).2.2.2 rfl⟩

/-- C7 counterexample: the record store_results writes is not a flat JSON
object — the value under its parameters key is itself a JSON object as soon
as the configuration is non-empty. -/
theorem store_results_record_is_not_flat :
    isFlatJson (store_results "grid" [("n", 5)] 1 0 (some 2)) = false := rfl

/-- C7 amended: for every evaluated trial, the run record written to
properties.json is a JSON object containing exactly the keys domain,
parameters, seed, planner_exitcode, and runtime (serialized in sorted key
order), where seed is stored as an integer; the value under parameters is
itself a JSON object, so the record is flat apart from that one field. -/
theorem store_results_exact_keys_and_integer_seed
    (domain : String) (cfg : Params) (seed exitcode : Int)
    (runtime : Option Rat) :
    (store_results domain cfg seed exitcode runtime).map Prod.fst
      = ["domain", "parameters", "planner_exitcode", "runtime", "seed"]
    ∧ (store_results domain cfg seed exitcode runtime).lookup "seed"
      = some (JVal.jint seed)
    ∧ (store_results domain cfg seed exitcode runtime).lookup "parameters"
      = some (JVal.jobj (cfg.map (fun kv => (kv.1, JVal.jnum kv.2)))) := by
  refine ⟨rfl, ?_, ?_⟩ <;> rfl

/-- C8: for a trial whose planner exits with code 0, the recorded runtime
is the parsed runtime clamped from below to 0.1, hence at least 0.1, and
the score returned to SMAC is its negation; for a non-zero exit code the
recorded runtime is null. -/
theorem success_runtime_clamped_failure_runtime_null
    (domain : String) (seed : Int) (t : TrialInput) (cfg : Params)
    (ha : t.adapted = some cfg) (hg : t.generatorOk = true) :
    (t.exitcode = 0 →
      ∃ rec r, (evaluate_configuration domain seed t).2 = some rec
        ∧ rec.lookup "runtime" = some (JVal.jnum r)
        ∧ r = max (mkRat 1 10) t.parsedRuntime
        ∧ mkRat 1 10 ≤ r
        ∧ (evaluate_configuration domain seed t).1 = -r)
    ∧ (t.exitcode ≠ 0 →
      ∃ rec, (evaluate_configuration domain seed t).2 = some rec
        ∧ rec.lookup "runtime" = some JVal.jnull) := by
  constructor
  · intro h0
    refine ⟨store_results domain cfg seed t.exitcode
        (some (parse_runtime t.parsedRuntime)),
      parse_runtime t.parsedRuntime, ?_, ?_, rfl, le_max_left _ _, ?_⟩
    · simp [evaluate_configuration, ha, hg, h0]
    · rfl
    · simp [evaluate_configuration, ha, hg, h0]
  · intro h0
    refine ⟨store_results domain cfg seed t.exitcode none, ?_, ?_⟩
    · simp [evaluate_configuration, ha, hg, h0]
    · rfl

/-- Witness for C8 at a concrete successful trial with parsed runtime 5. -/
theorem success_runtime_clamped_failure_runtime_null_witness :
    ∃ rec r, (evaluate_configuration "grid" 1
        (⟨some [("n", 4)], true, 0, 5⟩ : TrialInput)).2 = some rec
      ∧ rec.lookup "runtime" = some (JVal.jnum r)
      ∧ r = max (mkRat 1 10) 5
      ∧ mkRat 1 10 ≤ r
      ∧ (evaluate_configuration "grid" 1
          (⟨some [("n", 4)], true, 0, 5⟩ : TrialInput)).1 = -r :=
  (success_runtime_clamped_failure_runtime_null "grid" 1
    ⟨some [("n", 4)], true, 0, 5⟩ [("n", 4)] rfl rfl).1 rfl

/-- C1: a plan directory whose properties.json is read is retained only if
the record's planner_exitcode is 0: a record with non-zero exit code leaves
the entire collection state unchanged and copies nothing, and any change to
the set of written files comes from a record with exit code 0. -/
theorem collect_retains_only_exitcode_zero
    (C : CollectConfig) (st : CollectState) (pd : PlanDir) :
    (∀ p, pd.props = some p → p.planner_exitcode ≠ 0 →
      collectStep C st pd = st)
    ∧ ((collectStep C st pd).writes ≠ st.writes →
      ∃ p, pd.props = some p ∧ p.planner_exitcode = 0) := by
  constructor
  · intro p hp hne
    simp [collectStep, hp, hne]
  · intro hw
    cases h : pd.props with
    | none =>
      exfalso
      apply hw
      simp [collectStep, h]
    | some p =>
      refine ⟨p, rfl, ?_⟩
      by_contra hne
      apply hw
      simp [collectStep, h, hne]

/-- Witness for C1: a concrete record with planner_exitcode 1 is skipped
and the state is unchanged. -/
theorem collect_retains_only_exitcode_zero_witness :
    collectStep ⟨"dest", fun s => s, fun _ => "x"⟩ initCollectState
      ⟨some ⟨"d", [("n", 4)], 7, 1, 5⟩, "prob", "dom"⟩ = initCollectState :=
  (collect_retains_only_exitcode_zero ⟨"dest", fun s => s, fun _ => "x"⟩
      initCollectState
      ⟨some ⟨"d", [("n", 4)], 7, 1, 5⟩, "prob", "dom"⟩).1
    ⟨"d", [("n", 4)], 7, 1, 5⟩ rfl (by decide)

/-- C2: deduplication is by MD5 digest of the problem file text, scoped per
domain: a record whose problem hash was already seen for its domain is
discarded (the whole state is unchanged, nothing copied); a record whose
hash is new for its domain is retained — its files are written and its hash
is added to that domain's seen set only, so an identical problem file under
a different domain is not discarded. -/
theorem collect_dedup_md5_within_domain
    (C : CollectConfig) (st : CollectState) (pd : PlanDir) (p : CProps)
    (hp : pd.props = some p) (he : p.planner_exitcode = 0) :
    (hash_task C pd ∈ st.seen_task_hashes p.domain →
      collectStep C st pd = st)
    ∧ (hash_task C pd ∉ st.seen_task_hashes p.domain →
      (collectStep C st pd).writes = st.writes ++
        [(C.destdir ++ "/" ++ p.domain ++ "/" ++
            ("p-" ++ C.join_parameters p.parameters ++ "-" ++
              toString p.seed ++ ".pddl"), pd.problemContent),
         (C.destdir ++ "/" ++ p.domain ++ "/domain.pddl", pd.domainContent),
         (C.destdir ++ "/" ++ p.domain ++ "/README",
           "Parameter order: " ++
             String.intercalate ", " (sortedKeys p.parameters) ++ "\n")]
      ∧ (collectStep C st pd).seen_task_hashes p.domain
          = hash_task C pd :: st.seen_task_hashes p.domain
      ∧ ∀ d, d ≠ p.domain →
          (collectStep C st pd).seen_task_hashes d
            = st.seen_task_hashes d) := by
  constructor
  · intro hmem
    simp [collectStep, hp, he, hmem]
  · intro hd
    refine ⟨?_, ?_, ?_⟩
    · simp [collectStep, hp, he, hd]
    · simp [collectStep, hp, he, hd]
    · intro d hne
      simp [collectStep, hp, he, hd, hne]

/-- Witness for C2: a concrete record whose problem hash is already in its
domain's seen set leaves the state unchanged. -/
theorem collect_dedup_md5_within_domain_witness :
    collectStep ⟨"dest", fun s => s, fun _ => "x"⟩
      { initCollectState with
          seen_task_hashes := fun d => if d = "d" then ["prob"] else [] }
      ⟨some ⟨"d", [("n", 4)], 7, 0, 5⟩, "prob", "dom"⟩
    = { initCollectState with
          seen_task_hashes := fun d => if d = "d" then ["prob"] else [] } :=
  (collect_dedup_md5_within_domain ⟨"dest", fun s => s, fun _ => "x"⟩
      { initCollectState with
          seen_task_hashes := fun d => if d = "d" then ["prob"] else [] }
      ⟨some ⟨"d", [("n", 4)], 7, 0, 5⟩, "prob", "dom"⟩
      ⟨"d", [("n", 4)], 7, 0, 5⟩ rfl rfl).1 (by decide)

/-- C6: a retained instance with domain d, joined parameter string and seed
s has its problem file written to destdir/d/p-params-s.pddl and its
domain.pddl written into the same per-domain directory destdir/d. -/
theorem collect_copies_problem_and_domain_files
    (C : CollectConfig) (st : CollectState) (pd : PlanDir) (p : CProps)
    (hp : pd.props = some p) (he : p.planner_exitcode = 0)
    (hd : hash_task C pd ∉ st.seen_task_hashes p.domain) :
    (C.destdir ++ "/" ++ p.domain ++ "/" ++
        ("p-" ++ C.join_parameters p.parameters ++ "-" ++
          toString p.seed ++ ".pddl"), pd.problemContent)
      ∈ (collectStep C st pd).writes
    ∧ (C.destdir ++ "/" ++ p.domain ++ "/domain.pddl", pd.domainContent)
      ∈ (collectStep C st pd).writes := by
  constructor <;> simp [collectStep, hp, he, hd]

/-- Witness for C6 at a concrete retained record with seed 7. -/
theorem collect_copies_problem_and_domain_files_witness :
    ("dest" ++ "/" ++ "d" ++ "/" ++
        ("p-" ++ "x" ++ "-" ++ toString (7 : Int) ++ ".pddl"), "prob")
      ∈ (collectStep ⟨"dest", fun s => s, fun _ => "x"⟩ initCollectState
          ⟨some ⟨"d", [("n", 4)], 7, 0, 5⟩, "prob", "dom"⟩).writes
    ∧ ("dest" ++ "/" ++ "d" ++ "/domain.pddl", "dom")
      ∈ (collectStep ⟨"dest", fun s => s, fun _ => "x"⟩ initCollectState
          ⟨some ⟨"d", [("n", 4)], 7, 0, 5⟩, "prob", "dom"⟩).writes :=
  collect_copies_problem_and_domain_files
    ⟨"dest", fun s => s, fun _ => "x"⟩ initCollectState
    ⟨some ⟨"d", [("n", 4)], 7, 0, 5⟩, "prob", "dom"⟩
    ⟨"d", [("n", 4)], 7, 0, 5⟩ rfl rfl (by decide)

/-- C5: for every retained instance, the README written into its domain's
destination directory states the parameter order as the record's parameter
keys in ascending order joined by commas; the key list is sorted and is a
permutation of the record's parameter keys. -/
theorem collect_readme_states_sorted_parameter_order
    (C : CollectConfig) (st : CollectState) (pd : PlanDir) (p : CProps)
    (hp : pd.props = some p) (he : p.planner_exitcode = 0)
    (hd : hash_task C pd ∉ st.seen_task_hashes p.domain) :
    (C.destdir ++ "/" ++ p.domain ++ "/README",
        "Parameter order: " ++
          String.intercalate ", " (sortedKeys p.parameters) ++ "\n")
      ∈ (collectStep C st pd).writes
    ∧ List.Sorted (· ≤ ·) (sortedKeys p.parameters)
    ∧ (sortedKeys p.parameters).Perm (p.parameters.map Prod.fst) := by
  refine ⟨?_, ?_, ?_⟩
  · simp [collectStep, hp, he, hd]
  · exact List.sorted_insertionSort _ _
  · exact List.perm_insertionSort _ _

/-- Witness for C5 at a concrete retained record with the single parameter
key n. -/
theorem collect_readme_states_sorted_parameter_order_witness :
    ("dest" ++ "/" ++ "d" ++ "/README",
        "Parameter order: " ++ String.intercalate ", " (sortedKeys [("n", 4)]) ++ "\n")
      ∈ (collectStep ⟨"dest", fun s => s, fun _ => "x"⟩ initCollectState
          ⟨some ⟨"d", [("n", 4)], 7, 0, 5⟩, "prob", "dom"⟩).writes
    ∧ List.Sorted (· ≤ ·) (sortedKeys [("n", 4)])
    ∧ (sortedKeys [("n", 4)]).Perm ["n"] :=
  collect_readme_states_sorted_parameter_order
    ⟨"dest", fun s => s, fun _ => "x"⟩ initCollectState
    ⟨some ⟨"d", [("n", 4)], 7, 0, 5⟩, "prob", "dom"⟩
    ⟨"d", [("n", 4)], 7, 0, 5⟩ rfl rfl (by decide)

/-- On a strictly increasing list of bounds, the loop of record_runtime
increments exactly the least bound that is at least the runtime. -/
theorem record_runtime_loop_least (d : Rat → Nat) (r : Rat) :
    ∀ bs : List Rat, List.Pairwise (· < ·) bs →
      ∀ b, b ∈ bs → r ≤ b → (∀ b', b' ∈ bs → r ≤ b' → b ≤ b') →
      record_runtime_loop d r bs = bump d b := by
  intro bs
  induction bs with
  | nil =>
    intro _ b hb
    exact absurd hb (List.not_mem_nil b)
  | cons c cs ih =>
    intro hpair b hb hrb hmin
    rw [List.pairwise_cons] at hpair
    by_cases hrc : r ≤ c
    · have hbc : b ≤ c := hmin c (List.mem_cons_self c cs) hrc
      have hbec : b = c := by
        rcases List.mem_cons.mp hb with h | h
        · exact h
        · exact absurd hbc (not_le.mpr (hpair.1 b h))
      rw [record_runtime_loop, if_pos hrc, hbec]
    · have hbne : b ≠ c := fun hbc => hrc (hbc ▸ hrb)
      have hbcs : b ∈ cs := by
        rcases List.mem_cons.mp hb with h | h
        · exact absurd h hbne
        · exact h
      rw [record_runtime_loop, if_neg hrc]
      exact ih hpair.2 b hbcs hrb
        (fun b' hb' hrb' => hmin b' (List.mem_cons_of_mem c hb') hrb')

/-- When the runtime exceeds every bound, the loop of record_runtime leaves
the counters unchanged. -/
theorem record_runtime_loop_skip (d : Rat → Nat) (r : Rat) :
    ∀ bs : List Rat, (∀ b, b ∈ bs → ¬ r ≤ b) →
      record_runtime_loop d r bs = d := by
  intro bs
  induction bs with
  | nil => intro _; rfl
  | cons c cs ih =>
    intro h
    rw [record_runtime_loop, if_neg (h c (List.mem_cons_self c cs))]
    exact ih (fun b hb => h b (List.mem_cons_of_mem c hb))

/-- C9: a retained instance's runtime is counted in exactly the bucket of
the smallest bound of RUNTIME_BOUNDS that is at least the runtime (and no
other bucket changes), and a runtime greater than 10000 is counted in no
bucket. -/
theorem runtime_counted_in_least_bucket (d : Rat → Nat) (r : Rat) :
    (∀ b, b ∈ RUNTIME_BOUNDS → r ≤ b →
      (∀ b', b' ∈ RUNTIME_BOUNDS → r ≤ b' → b ≤ b') →
      record_runtime d r = bump d b)
    ∧ (10000 < r → record_runtime d r = d) := by
  constructor
  · intro b hb hrb hmin
    exact record_runtime_loop_least d r RUNTIME_BOUNDS (by decide) b hb hrb hmin
  · intro hr
    refine record_runtime_loop_skip d r RUNTIME_BOUNDS ?_
    intro b hb hle
    have hb10 : b ≤ 10000 := by
      fin_cases hb <;> norm_num
    exact absurd (le_trans hle hb10) (not_le.mpr hr)

/-- Witness for C9: runtime 5 is counted in the bucket of bound 10, the
smallest bound at least 5. -/
theorem runtime_counted_in_least_bucket_witness :
    record_runtime (fun _ => 0) 5 = bump (fun _ => 0) 10 :=
  (runtime_counted_in_least_bucket (fun _ => 0) 5).1 10
    (by decide) (by decide) (by decide)

/-- Unfolding record_max_values over the first parameter item. -/
theorem record_max_values_cons (kv : String × Rat) (ps : Params)
    (m : String → Option Rat) :
    record_max_values (kv :: ps) m = record_max_values ps (rmv_step m kv) := rfl

/-- One rmv_step never decreases an existing table entry. -/
theorem rmv_step_le (m : String → Option Rat) (kv : String × Rat)
    (k : String) (v : Rat) (h : m k = some v) :
    ∃ v', rmv_step m kv k = some v' ∧ v ≤ v' := by
  cases hm : m kv.1 with
  | none =>
    by_cases hk : k = kv.1
    · rw [hk, hm] at h
      cases h
    · exact ⟨v, by simp [rmv_step, hm, hk, h], le_refl v⟩
  | some old =>
    by_cases hlt : old < kv.2
    · by_cases hk : k = kv.1
      · have hvo : v = old := by
          rw [hk] at h
          rw [h] at hm
          exact Option.some.inj hm
        exact ⟨kv.2, by simp [rmv_step, hm, hlt, hk], hvo ▸ le_of_lt hlt⟩
      · exact ⟨v, by simp [rmv_step, hm, hlt, hk, h], le_refl v⟩
    · exact ⟨v, by simp [rmv_step, hm, hlt, h], le_refl v⟩

/-- record_max_values never decreases an existing table entry. -/
theorem record_max_values_le (parameters : Params) :
    ∀ (m : String → Option Rat) (k : String) (v : Rat), m k = some v →
      ∃ v', record_max_values parameters m k = some v' ∧ v ≤ v' := by
  induction parameters with
  | nil =>
    intro m k v h
    exact ⟨v, h, le_refl v⟩
  | cons kv ps ih =>
    intro m k v h
    obtain ⟨v1, h1, hv1⟩ := rmv_step_le m kv k v h
    obtain ⟨v', h', hv'⟩ := ih (rmv_step m kv) k v1 h1
    exact ⟨v', by rw [record_max_values_cons]; exact h', le_trans hv1 hv'⟩

/-- When rmv_step changes the entry of a key, the new entry is the new
value and the key was absent or strictly smaller before. -/
theorem rmv_step_changes (m : String → Option Rat) (kv : String × Rat)
    (k : String) (h : rmv_step m kv k ≠ m k) :
    rmv_step m kv k = some kv.2
    ∧ (m k = none ∨ ∃ old, m k = some old ∧ old < kv.2) := by
  cases hm : m kv.1 with
  | none =>
    by_cases hk : k = kv.1
    · subst hk
      exact ⟨by simp [rmv_step, hm], Or.inl hm⟩
    · exact absurd (by simp [rmv_step, hm, hk]) h
  | some old =>
    by_cases hlt : old < kv.2
    · by_cases hk : k = kv.1
      · subst hk
        exact ⟨by simp [rmv_step, hm, hlt], Or.inr ⟨old, hm, hlt⟩⟩
      · exact absurd (by simp [rmv_step, hm, hlt, hk]) h
    · exact absurd (by simp [rmv_step, hm, hlt]) h

/-- When record_max_values changes the entry of a key, the new entry is
strictly larger than the old one, or the key was absent. -/
theorem record_max_values_changes (parameters : Params) :
    ∀ (m : String → Option Rat) (k : String),
      record_max_values parameters m k ≠ m k →
      ∃ v', record_max_values parameters m k = some v'
        ∧ (m k = none ∨ ∃ v, m k = some v ∧ v < v') := by
  induction parameters with
  | nil =>
    intro m k h
    exact absurd rfl h
  | cons kv ps ih =>
    intro m k h
    rw [record_max_values_cons] at h ⊢
    by_cases hstep : record_max_values ps (rmv_step m kv) k = rmv_step m kv k
    · have hne : rmv_step m kv k ≠ m k := by
        intro heq
        exact h (by rw [hstep, heq])
      obtain ⟨hval, hcase⟩ := rmv_step_changes m kv k hne
      exact ⟨kv.2, by rw [hstep, hval], hcase⟩
    · obtain ⟨v', hv', hcase⟩ := ih (rmv_step m kv) k hstep
      by_cases hmk : rmv_step m kv k = m k
      · exact ⟨v', hv', by rwa [hmk] at hcase⟩
      · obtain ⟨hval, hcase0⟩ := rmv_step_changes m kv k hmk
        rcases hcase with hnone | ⟨v, hv, hlt⟩
        · rw [hval] at hnone
          cases hnone
        · rw [hval] at hv
          rcases hcase0 with h0 | ⟨old, hold, holt⟩
          · exact ⟨v', hv', Or.inl h0⟩
          · refine ⟨v', hv', Or.inr ⟨old, hold, ?_⟩⟩
            have : kv.2 < v' := (Option.some.inj hv) ▸ hlt
            exact lt_trans holt this

/-- C10: the per-domain max-value table is monotone: an existing entry
never decreases under record_max_values, an entry changes only to a
strictly larger value or when the key is new, and one iteration of the
collection loop never decreases an entry of any domain's table. -/
theorem max_values_table_monotone (parameters : Params)
    (m : String → Option Rat) (k : String) :
    (∀ v, m k = some v →
      ∃ v', record_max_values parameters m k = some v' ∧ v ≤ v')
    ∧ (record_max_values parameters m k ≠ m k →
      ∃ v', record_max_values parameters m k = some v'
        ∧ (m k = none ∨ ∃ v, m k = some v ∧ v < v'))
    ∧ (∀ (C : CollectConfig) (st : CollectState) (pd : PlanDir)
        (d : String) (v : Rat), st.max_values d k = some v →
        ∃ v', (collectStep C st pd).max_values d k = some v' ∧ v ≤ v') := by
  refine ⟨fun v h => record_max_values_le parameters m k v h,
          fun h => record_max_values_changes parameters m k h, ?_⟩
  intro C st pd d v h
  cases hp : pd.props with
  | none => exact ⟨v, by simp [collectStep, hp, h], le_refl v⟩
  | some p =>
    by_cases he : p.planner_exitcode = 0
    · by_cases hmem : hash_task C pd ∈ st.seen_task_hashes p.domain
      · exact ⟨v, by simp [collectStep, hp, he, hmem, h], le_refl v⟩
      · by_cases hd : d = p.domain
        · subst hd
          obtain ⟨v', hv', hle⟩ := record_max_values_le
            (p.parameters ++ [("planner_runtime", p.runtime)])
            (st.max_values p.domain) k v h
          exact ⟨v', by simpa [collectStep, hp, he, hmem] using hv', hle⟩
        · exact ⟨v, by simp [collectStep, hp, he, hmem, hd, h], le_refl v⟩
    · exact ⟨v, by simp [collectStep, hp, he, h], le_refl v⟩

/-- Witness for C10: an entry 3 under key a grows to at least 3 after
recording the value 5 for a. -/
theorem max_values_table_monotone_witness :
    ∃ v', record_max_values [("a", 5)]
        (fun s => if s = "a" then some (3 : Rat) else none) "a" = some v'
      ∧ (3 : Rat) ≤ v' :=
  (max_values_table_monotone [("a", 5)]
    (fun s => if s = "a" then some (3 : Rat) else none) "a").1 3 rfl

/-- Applying a write list is determined pointwise by the last write to the
path, falling back to the previous filesystem. -/
theorem applyWrites_eq_lastWrite (ws : List (String × String)) :
    ∀ (fs : String → Option String) (p : String),
      applyWrites fs ws p = (lastWrite ws p).or (fs p) := by
  induction ws with
  | nil =>
    intro fs p
    rfl
  | cons w ws ih =>
    intro fs p
    have h1 : applyWrites fs (w :: ws) p
        = applyWrites (fun q => if q = w.1 then some w.2 else fs q) ws p := rfl
    rw [h1, ih]
    cases hl : lastWrite ws p with
    | some c => simp [lastWrite, hl]
    | none =>
      by_cases hp : p = w.1
      · subst hp
        simp [lastWrite, hl]
      · simp [lastWrite, hl, hp]

/-- C4: the collection pass is idempotent on the destination filesystem:
running it twice over the same unchanged list of plan directories yields
exactly the same files (same paths, same contents) as running it once. The
pass never reads the destination directory, starts from fresh in-memory
state, and only overwrites, so the second run repeats the same writes. -/
theorem collect_pass_idempotent (C : CollectConfig) (pds : List PlanDir)
    (fs : String → Option String) :
    collectPass C pds (collectPass C pds fs) = collectPass C pds fs := by
  funext p
  simp only [collectPass]
  rw [applyWrites_eq_lastWrite, applyWrites_eq_lastWrite]
  cases lastWrite (collectRun C pds initCollectState).writes p with
  | some c => rfl
  | none => rfl

end BatchPDDL
